import Mathlib

/-!
Verification of the conversation-analytics pipeline (`analyze.py`).

The Python source is shallowly embedded: JSON records become structures with
`Option` fields (a missing key is `none`), Python `dict`/`Counter` objects
become insertion-ordered association lists, Python's stable `sort`/
`most_common` become `List.mergeSort`, and the float formulas of the carbon
footprint estimator are modelled exactly over `ℚ` with `round` modelled as
round-half-to-even.
-/

/-! ### Data model -/

structure Message where
  sender : Option String
  text : Option String
  created_at : Option String
deriving DecidableEq

structure Conversation where
  name : Option String
  created_at : Option String
  chat_messages : Option (List Message)
deriving DecidableEq

/-! ### Python string primitives -/

/-- Python slicing `s[:n]` on a string (by code point, as Python does). -/
def pyslice (s : String) (n : Nat) : String :=
  ⟨s.data.take n⟩

/-- Python `s.lower()` (ASCII-faithful). -/
def pylower (s : String) : String :=
  ⟨s.data.map Char.toLower⟩

/-- Python `needle in haystack` substring test on code-point lists. -/
def isSubstrOf (needle : List Char) : List Char → Bool
  | [] => needle.isPrefixOf []
  | c :: rest => needle.isPrefixOf (c :: rest) || isSubstrOf needle rest

/-- Python `timestamp.replace("Z", "+00:00")`: the pattern is a single
character, so it is an independent per-character substitution. -/
def replaceZ (s : String) : String :=
  ⟨s.data.foldr
    (fun c acc => if c = 'Z' then '+' :: '0' :: '0' :: ':' :: '0' :: '0' :: acc else c :: acc)
    []⟩

/-- Counts maximal whitespace-separated runs, tracking whether we are inside
a word, mirroring Python `str.split()` with no arguments. -/
def wordRuns : List Char → Bool → Nat
  | [], _ => 0
  | c :: rest, inWord =>
    if c.isWhitespace then wordRuns rest false
    else (if inWord then 0 else 1) + wordRuns rest true

/-- Source `count_words`: `0` for falsy text, else `len(text.split())`. -/
def count_words (text : String) : Nat :=
  if text = "" then 0 else wordRuns text.data false

/-! ### Counters (Python `collections.Counter` as insertion-ordered alists) -/

/-- Increment a counter key: an existing key keeps its position (Python dict
update), a new key is appended with count 1. -/
def counterIncr {α : Type} [DecidableEq α] (l : List (α × Nat)) (k : α) : List (α × Nat) :=
  match l with
  | [] => [(k, 1)]
  | (k', v) :: rest => if k' = k then (k', v + 1) :: rest else (k', v) :: counterIncr rest k

/-- Sum of all counter values. -/
def sumCounts {α : Type} (l : List (α × Nat)) : Nat :=
  (l.map (fun kv => kv.2)).sum

/-- Python `Counter.most_common()`: stable sort by count, descending. -/
def most_common {α : Type} (l : List (α × Nat)) : List (α × Nat) :=
  l.mergeSort (fun a b => decide (b.2 ≤ a.2))

/-! ### Timestamp parsing (`datetime.fromisoformat`) -/

structure DateTime where
  year : Nat
  month : Nat
  day : Nat
  hour : Nat
  minute : Nat
  second : Nat
deriving DecidableEq

def digitVal (c : Char) : Option Nat :=
  if c.isDigit then some (c.toNat - 48) else none

def parse2 : List Char → Option (Nat × List Char)
  | a :: b :: rest => do
    let x ← digitVal a
    let y ← digitVal b
    pure (x * 10 + y, rest)
  | _ => none

def parse4 : List Char → Option (Nat × List Char)
  | a :: b :: c :: d :: rest => do
    let x ← digitVal a
    let y ← digitVal b
    let z ← digitVal c
    let w ← digitVal d
    pure (x * 1000 + y * 100 + z * 10 + w, rest)
  | _ => none

def isLeapYear (y : Nat) : Bool :=
  (y % 4 == 0 && y % 100 != 0) || y % 400 == 0

def daysInMonth (y m : Nat) : Nat :=
  if m = 2 then (if isLeapYear y then 29 else 28)
  else if m = 4 ∨ m = 6 ∨ m = 9 ∨ m = 11 then 30
  else 31

/-- Consume one or more fractional-second digits after a dot. -/
def parseFracDigits : List Char → Option (List Char)
  | c :: rest =>
    if c.isDigit then
      some (rest.dropWhile Char.isDigit)
    else none
  | [] => none

/-- An optional UTC offset `±HH:MM`; the empty tail is accepted. -/
def parseOffsetEnd : List Char → Bool
  | [] => true
  | sign :: rest =>
    (sign = '+' || sign = '-') &&
      (match parse2 rest with
       | some (oh, ':' :: rest2) =>
         (match parse2 rest2 with
          | some (om, []) => oh ≤ 23 && om ≤ 59
          | _ => false)
       | _ => false)

/-- The trailing part of a time after seconds: optional fraction, then an
optional offset. -/
def parseSecondTail (cs : List Char) : Bool :=
  match cs with
  | '.' :: rest =>
    (match parseFracDigits rest with
     | some rest2 => parseOffsetEnd rest2
     | none => false)
  | _ => parseOffsetEnd cs

/-- Time-of-day `HH[:MM[:SS[.ffffff]]]` with optional offset. -/
def parseTime (cs : List Char) : Option (Nat × Nat × Nat) := do
  let (h, rest) ← parse2 cs
  if h ≤ 23 then
    match rest with
    | ':' :: rest1 => do
      let (mi, rest2) ← parse2 rest1
      if mi ≤ 59 then
        match rest2 with
        | ':' :: rest3 => do
          let (se, rest4) ← parse2 rest3
          if se ≤ 59 && parseSecondTail rest4 then pure (h, mi, se) else none
        | _ => if parseOffsetEnd rest2 then pure (h, mi, 0) else none
      else none
    | _ => if parseOffsetEnd rest then pure (h, 0, 0) else none
  else none

/-- Model of `datetime.fromisoformat`: `YYYY-MM-DD`, optionally followed by a
single separator character and a time-of-day with optional offset. -/
def parseISO (s : String) : Option DateTime := do
  match parse4 s.data with
  | some (y, '-' :: rest1) =>
    match parse2 rest1 with
    | some (mo, '-' :: rest2) =>
      match parse2 rest2 with
      | some (d, rest3) =>
        if 1 ≤ y ∧ 1 ≤ mo ∧ mo ≤ 12 ∧ 1 ≤ d ∧ d ≤ daysInMonth y mo then
          match rest3 with
          | [] => pure ⟨y, mo, d, 0, 0, 0⟩
          | _ :: timePart => do
            let (h, mi, se) ← parseTime timePart
            pure ⟨y, mo, d, h, mi, se⟩
        else none
      | _ => none
    | _ => none
  | _ => none

/-- Day count from the civil calendar (Hinnant's algorithm, shifted so all
arithmetic stays in `Nat`; valid for years ≥ 1). -/
def daysFromCivil (y m d : Nat) : Nat :=
  let y' := if m ≤ 2 then y - 1 else y
  let era := y' / 400
  let yoe := y' % 400
  let mp := if 2 < m then m - 3 else m + 9
  let doy := (153 * mp + 2) / 5 + (d - 1)
  let doe := yoe * 365 + yoe / 4 - yoe / 100 + doy
  era * 146097 + doe

/-- Python `date.weekday()`: Monday is 0, Sunday is 6. -/
def weekdayOf (y m d : Nat) : Nat :=
  (daysFromCivil y m d + 2) % 7

/-- Source `extract_hour`: `None` for falsy or unparseable input, else the
parsed hour. -/
def extract_hour (timestamp : String) : Option Nat :=
  if timestamp = "" then none
  else (parseISO (replaceZ timestamp)).map (fun dt => dt.hour)

/-- Source `extract_weekday`: `None` for falsy or unparseable input, else
Monday-0 weekday of the parsed date. -/
def extract_weekday (timestamp : String) : Option Nat :=
  if timestamp = "" then none
  else (parseISO (replaceZ timestamp)).map (fun dt => weekdayOf dt.year dt.month dt.day)

/-! ### Conversation aggregator (`analyze_conversations`) -/

structure NameDate where
  name : String
  date : String
deriving DecidableEq

structure LongRecord where
  name : String
  messages : Nat
  human_words : Nat
  assistant_words : Nat
  date : String
deriving DecidableEq

structure Stats where
  total_conversations : Nat
  total_messages : Nat
  human_messages : Nat
  assistant_messages : Nat
  human_words : Nat
  assistant_words : Nat
  conversations_by_month : List (String × Nat)
  messages_by_hour : List (Nat × Nat)
  messages_by_weekday : List (String × Nat)
  conversation_lengths : List Nat
  longest_conversations : List LongRecord
  conversation_names : List NameDate
  avg_messages_per_convo : Option ℚ
  avg_human_words_per_convo : Option ℚ
  avg_assistant_words_per_convo : Option ℚ
  peak_hour : Option (Nat × Nat)
  peak_weekday : Option (String × Nat)

def weekday_names : List String :=
  ["Monday", "Tuesday", "Wednesday", "Thursday", "Friday", "Saturday", "Sunday"]

/-- Source `convo.get("name", "Untitled")`. -/
def convoName (c : Conversation) : String := c.name.getD "Untitled"

/-- Source `convo.get("created_at", "")[:10]`. -/
def convoCreated (c : Conversation) : String := pyslice (c.created_at.getD "") 10

/-- Source `convo.get("chat_messages", [])`. -/
def convoMessages (c : Conversation) : List Message := c.chat_messages.getD []

def convoNameDate (c : Conversation) : NameDate :=
  { name := convoName c, date := convoCreated c }

def msgSender (m : Message) : String := m.sender.getD ""

def msgText (m : Message) : String := m.text.getD ""

def msgCreatedAt (m : Message) : String := m.created_at.getD ""

/-- The sender branch of the message loop: per-sender message/word tallies
plus the two per-conversation word accumulators. -/
def senderUpdate (acc : Stats × Nat × Nat) (m : Message) : Stats × Nat × Nat :=
  let word_count := count_words (msgText m)
  if msgSender m = "human" then
    ({ acc.1 with
        human_messages := acc.1.human_messages + 1
        human_words := acc.1.human_words + word_count },
      acc.2.1 + word_count, acc.2.2)
  else if msgSender m = "assistant" then
    ({ acc.1 with
        assistant_messages := acc.1.assistant_messages + 1
        assistant_words := acc.1.assistant_words + word_count },
      acc.2.1, acc.2.2 + word_count)
  else acc

/-- The hour-bucket branch of the message loop. -/
def hourUpdate (s : Stats) (m : Message) : Stats :=
  match extract_hour (msgCreatedAt m) with
  | some hour => { s with messages_by_hour := counterIncr s.messages_by_hour hour }
  | none => s

/-- The weekday-bucket branch of the message loop. -/
def weekdayUpdate (s : Stats) (m : Message) : Stats :=
  match extract_weekday (msgCreatedAt m) with
  | some weekday =>
    { s with messages_by_weekday :=
        counterIncr s.messages_by_weekday (weekday_names.getD weekday "") }
  | none => s

/-- One iteration of `for msg in messages` in `analyze_conversations`. -/
def processMsg (acc : Stats × Nat × Nat) (m : Message) : Stats × Nat × Nat :=
  let acc := senderUpdate acc m
  (weekdayUpdate (hourUpdate acc.1 m) m, acc.2.1, acc.2.2)

/-- The per-conversation word accumulators in isolation (same updates the
sender branch applies to them). -/
def wordStep (hw_aw : Nat × Nat) (m : Message) : Nat × Nat :=
  let word_count := count_words (msgText m)
  if msgSender m = "human" then (hw_aw.1 + word_count, hw_aw.2)
  else if msgSender m = "assistant" then (hw_aw.1, hw_aw.2 + word_count)
  else hw_aw

/-- The per-conversation record appended to `longest_conversations`
(before the final sort and truncation). -/
def convoRecord (c : Conversation) : LongRecord :=
  let hw_aw := (convoMessages c).foldl wordStep (0, 0)
  { name := convoName c
    messages := (convoMessages c).length
    human_words := hw_aw.1
    assistant_words := hw_aw.2
    date := convoCreated c }

/-- One iteration of `for convo in convos` in `analyze_conversations`. -/
def processConvo (s : Stats) (convo : Conversation) : Stats :=
  let name := convoName convo
  let created := convoCreated convo
  let s := { s with conversation_names := s.conversation_names ++ [convoNameDate convo] }
  let s :=
    if created ≠ "" then
      { s with conversations_by_month := counterIncr s.conversations_by_month (pyslice created 7) }
    else s
  let messages := convoMessages convo
  let msg_count := messages.length
  let s := { s with
    total_messages := s.total_messages + msg_count
    conversation_lengths := s.conversation_lengths ++ [msg_count] }
  let acc := messages.foldl processMsg (s, 0, 0)
  { acc.1 with longest_conversations := acc.1.longest_conversations ++
      [{ name := name, messages := msg_count, human_words := acc.2.1,
         assistant_words := acc.2.2, date := created }] }

def initStats (convos : List Conversation) : Stats :=
  { total_conversations := convos.length
    total_messages := 0
    human_messages := 0
    assistant_messages := 0
    human_words := 0
    assistant_words := 0
    conversations_by_month := []
    messages_by_hour := []
    messages_by_weekday := []
    conversation_lengths := []
    longest_conversations := []
    conversation_names := []
    avg_messages_per_convo := none
    avg_human_words_per_convo := none
    avg_assistant_words_per_convo := none
    peak_hour := none
    peak_weekday := none }

/-- Ordering used by `stats["longest_conversations"].sort(key=..., reverse=True)`:
Python's stable sort with reversed comparisons on the key. -/
def longestLE (a b : LongRecord) : Bool :=
  decide (b.messages ≤ a.messages)

/-- The tail of `analyze_conversations`: conditional averages, then peak
hour and peak weekday via `most_common(...)[0]` when non-empty. -/
def addDerived (s : Stats) : Stats :=
  let s :=
    if s.total_conversations > 0 then
      { s with
        avg_messages_per_convo := some ((s.total_messages : ℚ) / (s.total_conversations : ℚ))
        avg_human_words_per_convo := some ((s.human_words : ℚ) / (s.total_conversations : ℚ))
        avg_assistant_words_per_convo := some ((s.assistant_words : ℚ) / (s.total_conversations : ℚ)) }
    else s
  let s :=
    match (most_common s.messages_by_hour).head? with
    | some kv => { s with peak_hour := some kv }
    | none => s
  match (most_common s.messages_by_weekday).head? with
  | some kv => { s with peak_weekday := some kv }
  | none => s

/-- Source `analyze_conversations`: the single forward pass, then the stable
descending sort truncated to 20, then conditional averages and peaks. -/
def analyze_conversations (convos : List Conversation) : Stats :=
  let s := convos.foldl processConvo (initStats convos)
  addDerived
    { s with longest_conversations := (s.longest_conversations.mergeSort longestLE).take 20 }

/-! ### Topic classifier (`extract_topics`) -/

def topic_keywords : List (String × List String) :=
  [("Work - Duckbill", ["duckbill", "gmv", "influencer", "tagline", "billboard", "marketing copy", "pricing strategy"]),
   ("Work - Solstice Aerospace", ["solstice", "aerospace", "hydrogen", "aircraft", "aviation", "airline", "fuel cell", "faa"]),
   ("Work - Consulting", ["consulting", "anthimeros", "fractional", "client", "proposal", "firesale", "focus"]),
   ("Vermouth/Cartographer", ["vermouth", "cartographer", "tincture", "botanical", "extraction", "wormwood", "gentian", "filtering"]),
   ("Personal Projects", ["ira", "penumbra", "book tracking", "raspberry pi", "traffic light", "tinsel tag"]),
   ("Style & Fashion", ["outfit", "styling", "shirt", "jeans", "sock", "shoes", "wardrobe", "wes anderson", "chore jacket"]),
   ("Health & Fitness", ["fitness", "cycling", "bike", "ride", "oura", "readiness", "recovery", "hrv", "supplement", "vitamin", "nutrition", "sleep"]),
   ("Food & Dining", ["restaurant", "dinner", "lunch", "coffee", "cocktail", "bar", "sushi", "austin", "brunch", "solo dining", "date night"]),
   ("Parenting & Family", ["toddler", "kid", "child", "parenting", "family", "school", "teacher", "swim", "separation anxiety", "sleep training", "meltdown"]),
   ("Technical/Coding", ["code", "python", "script", "api", "css", "ghost", "dataview", "obsidian", "google sheets", "spreadsheet", "formula"]),
   ("Finance & Business", ["salary", "budget", "investment", "tax", "insurance", "equity", "fundraising", "pitch", "investor"]),
   ("Philosophy & Learning", ["philosophy", "explain", "etymology", "meaning", "what is", "why", "history"]),
   ("Travel", ["trip", "paris", "france", "denver", "colorado", "san francisco"])]

/-- The inner `for keyword in keywords` loop with its `break`. -/
def matchKeywords (name : String) : List String → Bool
  | [] => false
  | kw :: rest => if isSubstrOf kw.data name.data then true else matchKeywords name rest

/-- The outer `for topic, keywords in topic_keywords.items()` loop with its
`matched` flag and `break`; falls through to `"Other"`. -/
def classifyName (name : String) : List (String × List String) → String
  | [] => "Other"
  | (topic, kws) :: rest =>
    if matchKeywords name kws then topic else classifyName name rest

/-- Source `convo.get("name", "").lower()` in `extract_topics`. -/
def topicName (c : Conversation) : String := pylower (c.name.getD "")

structure TopicRec where
  name : Option String
  date : String
deriving DecidableEq

/-- The sample record `{"name": convo.get("name"), "date": created}`: note
that a missing name is stored as-is (`None`), not defaulted. -/
def topicSample (c : Conversation) : TopicRec :=
  { name := c.name, date := convoCreated c }

/-- Append to a `defaultdict(list)` entry: first insertion of a key appends
the key at the end, later insertions extend its list in place. -/
def sampleAppend (l : List (String × List TopicRec)) (k : String) (r : TopicRec) :
    List (String × List TopicRec) :=
  match l with
  | [] => [(k, [r])]
  | (k', v) :: rest =>
    if k' = k then (k', v ++ [r]) :: rest else (k', v) :: sampleAppend rest k r

/-- One iteration of the conversation loop in `extract_topics`. -/
def topicStep (acc : List (String × Nat) × List (String × List TopicRec))
    (convo : Conversation) : List (String × Nat) × List (String × List TopicRec) :=
  let topic := classifyName (topicName convo) topic_keywords
  (counterIncr acc.1 topic, sampleAppend acc.2 topic (topicSample convo))

structure Topics where
  topic_counts : List (String × Nat)
  categorized_conversations : List (String × List TopicRec)
deriving DecidableEq

/-- Source `extract_topics`: classify every conversation, then report counts
in `most_common` order and at most the first 10 samples per category. -/
def extract_topics (convos : List Conversation) : Topics :=
  let acc := convos.foldl topicStep ([], [])
  { topic_counts := most_common acc.1
    categorized_conversations := acc.2.map (fun kv => (kv.1, kv.2.take 10)) }

/-! ### Footprint estimator (`calculate_carbon_footprint`) -/

/-- Round-half-to-even to an integer, modelling Python `round` (the float
arithmetic of the source is modelled exactly over `ℚ`). -/
def roundHalfEven (q : ℚ) : ℤ :=
  if Int.fract q < 1/2 then ⌊q⌋
  else if 1/2 < Int.fract q then ⌊q⌋ + 1
  else if ⌊q⌋ % 2 = 0 then ⌊q⌋ else ⌊q⌋ + 1

/-- Python `round(q, ndigits)` for a nonnegative digit count. -/
def pyround (q : ℚ) (ndigits : Nat) : ℚ :=
  (roundHalfEven (q * 10 ^ ndigits) : ℚ) / 10 ^ ndigits

/-- Source line `operational_kwh = (total_pairs * wh_per_exchange * pue) / 1000`
with `wh_per_exchange = 20.0`, `pue = 1.3`. -/
def operational_kwh_raw (pairs : Nat) : ℚ :=
  ((pairs : ℚ) * 20.0 * 1.3) / 1000

/-- Source line `electricity_co2_kg = operational_kwh * grid_intensity`
with `grid_intensity = 0.45`. -/
def electricity_co2_raw (pairs : Nat) : ℚ :=
  operational_kwh_raw pairs * 0.45

/-- Source line `operational_co2_kg = electricity_co2_kg * hardware_multiplier`
with `hardware_multiplier = 1.5`. -/
def operational_co2_raw (pairs : Nat) : ℚ :=
  electricity_co2_raw pairs * 1.5

/-- Source line `training_co2_kg = total_pairs * training_base_kg * reasoning_multiplier`
with `training_base_kg = 0.006`, `reasoning_multiplier = 4.0`. -/
def training_co2_raw (pairs : Nat) : ℚ :=
  (pairs : ℚ) * 0.006 * 4.0

/-- Source line `total_co2_kg = operational_co2_kg + training_co2_kg`. -/
def total_co2_raw (pairs : Nat) : ℚ :=
  operational_co2_raw pairs + training_co2_raw pairs

/-- Source line `water_liters = operational_kwh * water_per_kwh`
with `water_per_kwh = 10.0`. -/
def water_liters_raw (pairs : Nat) : ℚ :=
  operational_kwh_raw pairs * 10.0

/-- Source line `offset_cost = total_co2_tons * offset_price_per_ton`
with `total_co2_tons = total_co2_kg / 1000`, `offset_price_per_ton = 20.0`. -/
def offset_cost_raw (pairs : Nat) : ℚ :=
  (total_co2_raw pairs / 1000) * 20.0

structure Footprint where
  operational_kwh : ℚ
  electricity_co2_kg : ℚ
  operational_co2_kg : ℚ
  training_co2_kg : ℚ
  total_co2_kg : ℚ
  total_co2_tons : ℚ
  offset_cost_usd : ℚ
  water_liters : ℚ
  car_miles_equivalent : ℚ
  flight_miles_equivalent : ℚ
  showers_equivalent : ℚ
  message_pairs : Nat
deriving DecidableEq

/-- Source `calculate_carbon_footprint`: reads `stats["human_messages"]` and
`stats["assistant_messages"]`, takes `total_pairs` as their minimum, and
returns the rounded estimates. -/
def calculate_carbon_footprint (human_messages assistant_messages : Nat) : Footprint :=
  let total_pairs := min human_messages assistant_messages
  { operational_kwh := pyround (operational_kwh_raw total_pairs) 1
    electricity_co2_kg := pyround (electricity_co2_raw total_pairs) 1
    operational_co2_kg := pyround (operational_co2_raw total_pairs) 1
    training_co2_kg := pyround (training_co2_raw total_pairs) 1
    total_co2_kg := pyround (total_co2_raw total_pairs) 1
    total_co2_tons := pyround (total_co2_raw total_pairs / 1000) 3
    offset_cost_usd := pyround (offset_cost_raw total_pairs) 2
    water_liters := pyround (water_liters_raw total_pairs) 0
    car_miles_equivalent := pyround (total_co2_raw total_pairs / 0.4) 0
    flight_miles_equivalent := pyround (total_co2_raw total_pairs / 0.25) 0
    showers_equivalent := pyround (water_liters_raw total_pairs / 65) 1
    message_pairs := total_pairs }

/-! ### Wrapped synthesizer (`generate_wrapped_stats`, relevant fields) -/

structure Wrapped where
  claude_verbosity_ratio : Option ℚ
  your_communication_style : Option String
  top_topics : List (String × Nat)
  other_topics_count : Nat
  carbon_footprint : Footprint
deriving DecidableEq

/-- The fields of `generate_wrapped_stats` under verification: the verbosity
ratio and communication style (guarded by `human_words > 0`), the top-topics
list (`topic_counts` minus `"Other"`, truncated to 7), the `"Other"` count,
and the carbon footprint. -/
def generate_wrapped_stats (stats : Stats) (topics : Topics) : Wrapped :=
  let verbosity : Option ℚ × Option String :=
    if stats.human_words > 0 then
      let ratio := pyround ((stats.assistant_words : ℚ) / (stats.human_words : ℚ)) 1
      (some ratio, some (if ratio > 5 then "Concise" else "Conversational"))
    else (none, none)
  { claude_verbosity_ratio := verbosity.1
    your_communication_style := verbosity.2
    top_topics := (topics.topic_counts.filter (fun kv => kv.1 ≠ "Other")).take 7
    other_topics_count :=
      match topics.topic_counts.find? (fun kv => kv.1 = "Other") with
      | some kv => kv.2
      | none => 0
    carbon_footprint := calculate_carbon_footprint stats.human_messages stats.assistant_messages }

/-! ### Counter lemmas -/

theorem sumCounts_nil {α : Type} : sumCounts ([] : List (α × Nat)) = 0 := rfl

theorem sumCounts_counterIncr {α : Type} [DecidableEq α] (l : List (α × Nat)) (k : α) :
    sumCounts (counterIncr l k) = sumCounts l + 1 := by
  induction l with
  | nil => rfl
  | cons kv rest ih =>
    obtain ⟨k', v⟩ := kv
    by_cases h : k' = k
    · simp [counterIncr, h, sumCounts]
      omega
    · simp [counterIncr, h, sumCounts] at ih ⊢
      omega

/-! ### Step characterizations of the message loop -/

theorem senderUpdate_eq (acc : Stats × Nat × Nat) (m : Message) :
    senderUpdate acc m =
      ({ acc.1 with
          human_messages := acc.1.human_messages + (if msgSender m = "human" then 1 else 0)
          human_words := acc.1.human_words +
            (if msgSender m = "human" then count_words (msgText m) else 0)
          assistant_messages := acc.1.assistant_messages +
            (if msgSender m = "assistant" then 1 else 0)
          assistant_words := acc.1.assistant_words +
            (if msgSender m = "assistant" then count_words (msgText m) else 0) },
        wordStep acc.2 m) := by
  obtain ⟨s, hw, aw⟩ := acc
  cases s
  unfold senderUpdate wordStep
  split_ifs with h1 h2 <;> simp_all

theorem hourUpdate_eq (s : Stats) (m : Message) :
    hourUpdate s m =
      { s with messages_by_hour :=
          match extract_hour (msgCreatedAt m) with
          | some hour => counterIncr s.messages_by_hour hour
          | none => s.messages_by_hour } := by
  unfold hourUpdate
  cases extract_hour (msgCreatedAt m) <;> rfl

theorem weekdayUpdate_eq (s : Stats) (m : Message) :
    weekdayUpdate s m =
      { s with messages_by_weekday :=
          match extract_weekday (msgCreatedAt m) with
          | some weekday =>
            counterIncr s.messages_by_weekday (weekday_names.getD weekday "")
          | none => s.messages_by_weekday } := by
  unfold weekdayUpdate
  cases extract_weekday (msgCreatedAt m) <;> rfl

theorem processMsg_fst (acc : Stats × Nat × Nat) (m : Message) :
    (processMsg acc m).1 = weekdayUpdate (hourUpdate (senderUpdate acc m).1 m) m := rfl

theorem processMsg_snd (acc : Stats × Nat × Nat) (m : Message) :
    (processMsg acc m).2 = wordStep acc.2 m := by
  show ((senderUpdate acc m).2.1, (senderUpdate acc m).2.2) = wordStep acc.2 m
  rw [senderUpdate_eq]

theorem processMsg_total_conversations (acc : Stats × Nat × Nat) (m : Message) :
    (processMsg acc m).1.total_conversations = acc.1.total_conversations := by
  rw [processMsg_fst, weekdayUpdate_eq, hourUpdate_eq, senderUpdate_eq]

theorem processMsg_total_messages (acc : Stats × Nat × Nat) (m : Message) :
    (processMsg acc m).1.total_messages = acc.1.total_messages := by
  rw [processMsg_fst, weekdayUpdate_eq, hourUpdate_eq, senderUpdate_eq]

theorem processMsg_months (acc : Stats × Nat × Nat) (m : Message) :
    (processMsg acc m).1.conversations_by_month = acc.1.conversations_by_month := by
  rw [processMsg_fst, weekdayUpdate_eq, hourUpdate_eq, senderUpdate_eq]

theorem processMsg_lengths (acc : Stats × Nat × Nat) (m : Message) :
    (processMsg acc m).1.conversation_lengths = acc.1.conversation_lengths := by
  rw [processMsg_fst, weekdayUpdate_eq, hourUpdate_eq, senderUpdate_eq]

theorem processMsg_names (acc : Stats × Nat × Nat) (m : Message) :
    (processMsg acc m).1.conversation_names = acc.1.conversation_names := by
  rw [processMsg_fst, weekdayUpdate_eq, hourUpdate_eq, senderUpdate_eq]

theorem processMsg_longest (acc : Stats × Nat × Nat) (m : Message) :
    (processMsg acc m).1.longest_conversations = acc.1.longest_conversations := by
  rw [processMsg_fst, weekdayUpdate_eq, hourUpdate_eq, senderUpdate_eq]

theorem processMsg_human_messages (acc : Stats × Nat × Nat) (m : Message) :
    (processMsg acc m).1.human_messages =
      acc.1.human_messages + (if msgSender m = "human" then 1 else 0) := by
  rw [processMsg_fst, weekdayUpdate_eq, hourUpdate_eq, senderUpdate_eq]

theorem processMsg_assistant_messages (acc : Stats × Nat × Nat) (m : Message) :
    (processMsg acc m).1.assistant_messages =
      acc.1.assistant_messages + (if msgSender m = "assistant" then 1 else 0) := by
  rw [processMsg_fst, weekdayUpdate_eq, hourUpdate_eq, senderUpdate_eq]

theorem processMsg_human_words (acc : Stats × Nat × Nat) (m : Message) :
    (processMsg acc m).1.human_words =
      acc.1.human_words + (if msgSender m = "human" then count_words (msgText m) else 0) := by
  rw [processMsg_fst, weekdayUpdate_eq, hourUpdate_eq, senderUpdate_eq]

theorem processMsg_assistant_words (acc : Stats × Nat × Nat) (m : Message) :
    (processMsg acc m).1.assistant_words =
      acc.1.assistant_words +
        (if msgSender m = "assistant" then count_words (msgText m) else 0) := by
  rw [processMsg_fst, weekdayUpdate_eq, hourUpdate_eq, senderUpdate_eq]

theorem processMsg_hour_sum (acc : Stats × Nat × Nat) (m : Message) :
    sumCounts (processMsg acc m).1.messages_by_hour =
      sumCounts acc.1.messages_by_hour +
        (if (extract_hour (msgCreatedAt m)).isSome then 1 else 0) := by
  rw [processMsg_fst, weekdayUpdate_eq, hourUpdate_eq, senderUpdate_eq]
  cases extract_hour (msgCreatedAt m) <;> simp [sumCounts_counterIncr]

theorem processMsg_weekday_sum (acc : Stats × Nat × Nat) (m : Message) :
    sumCounts (processMsg acc m).1.messages_by_weekday =
      sumCounts acc.1.messages_by_weekday +
        (if (extract_weekday (msgCreatedAt m)).isSome then 1 else 0) := by
  rw [processMsg_fst, weekdayUpdate_eq, hourUpdate_eq, senderUpdate_eq]
  cases extract_weekday (msgCreatedAt m) <;> simp [sumCounts_counterIncr]

/-! ### Fold characterizations of the message loop -/

theorem msgFold_total_conversations (msgs : List Message) :
    ∀ acc : Stats × Nat × Nat,
      ((msgs.foldl processMsg acc).1).total_conversations = acc.1.total_conversations := by
  induction msgs with
  | nil => intro acc; rfl
  | cons m rest ih =>
    intro acc
    rw [List.foldl_cons, ih, processMsg_total_conversations]

theorem msgFold_total_messages (msgs : List Message) :
    ∀ acc : Stats × Nat × Nat,
      ((msgs.foldl processMsg acc).1).total_messages = acc.1.total_messages := by
  induction msgs with
  | nil => intro acc; rfl
  | cons m rest ih =>
    intro acc
    rw [List.foldl_cons, ih, processMsg_total_messages]

theorem msgFold_months (msgs : List Message) :
    ∀ acc : Stats × Nat × Nat,
      ((msgs.foldl processMsg acc).1).conversations_by_month = acc.1.conversations_by_month := by
  induction msgs with
  | nil => intro acc; rfl
  | cons m rest ih =>
    intro acc
    rw [List.foldl_cons, ih, processMsg_months]

theorem msgFold_lengths (msgs : List Message) :
    ∀ acc : Stats × Nat × Nat,
      ((msgs.foldl processMsg acc).1).conversation_lengths = acc.1.conversation_lengths := by
  induction msgs with
  | nil => intro acc; rfl
  | cons m rest ih =>
    intro acc
    rw [List.foldl_cons, ih, processMsg_lengths]

theorem msgFold_names (msgs : List Message) :
    ∀ acc : Stats × Nat × Nat,
      ((msgs.foldl processMsg acc).1).conversation_names = acc.1.conversation_names := by
  induction msgs with
  | nil => intro acc; rfl
  | cons m rest ih =>
    intro acc
    rw [List.foldl_cons, ih, processMsg_names]

theorem msgFold_longest (msgs : List Message) :
    ∀ acc : Stats × Nat × Nat,
      ((msgs.foldl processMsg acc).1).longest_conversations = acc.1.longest_conversations := by
  induction msgs with
  | nil => intro acc; rfl
  | cons m rest ih =>
    intro acc
    rw [List.foldl_cons, ih, processMsg_longest]

theorem msgFold_human_messages (msgs : List Message) :
    ∀ acc : Stats × Nat × Nat,
      ((msgs.foldl processMsg acc).1).human_messages =
        acc.1.human_messages + msgs.countP (fun m => decide (msgSender m = "human")) := by
  induction msgs with
  | nil => intro acc; simp
  | cons m rest ih =>
    intro acc
    rw [List.foldl_cons, ih, processMsg_human_messages, List.countP_cons]
    by_cases h : msgSender m = "human" <;> simp [h] <;> omega

theorem msgFold_assistant_messages (msgs : List Message) :
    ∀ acc : Stats × Nat × Nat,
      ((msgs.foldl processMsg acc).1).assistant_messages =
        acc.1.assistant_messages + msgs.countP (fun m => decide (msgSender m = "assistant")) := by
  induction msgs with
  | nil => intro acc; simp
  | cons m rest ih =>
    intro acc
    rw [List.foldl_cons, ih, processMsg_assistant_messages, List.countP_cons]
    by_cases h : msgSender m = "assistant" <;> simp [h] <;> omega

theorem msgFold_human_words (msgs : List Message) :
    ∀ acc : Stats × Nat × Nat,
      ((msgs.foldl processMsg acc).1).human_words =
        acc.1.human_words +
          (msgs.map (fun m => if msgSender m = "human" then count_words (msgText m) else 0)).sum := by
  induction msgs with
  | nil => intro acc; simp
  | cons m rest ih =>
    intro acc
    rw [List.foldl_cons, ih, processMsg_human_words, List.map_cons, List.sum_cons]
    omega

theorem msgFold_assistant_words (msgs : List Message) :
    ∀ acc : Stats × Nat × Nat,
      ((msgs.foldl processMsg acc).1).assistant_words =
        acc.1.assistant_words +
          (msgs.map (fun m =>
            if msgSender m = "assistant" then count_words (msgText m) else 0)).sum := by
  induction msgs with
  | nil => intro acc; simp
  | cons m rest ih =>
    intro acc
    rw [List.foldl_cons, ih, processMsg_assistant_words, List.map_cons, List.sum_cons]
    omega

theorem msgFold_hour_sum (msgs : List Message) :
    ∀ acc : Stats × Nat × Nat,
      sumCounts ((msgs.foldl processMsg acc).1).messages_by_hour =
        sumCounts acc.1.messages_by_hour +
          msgs.countP (fun m => (extract_hour (msgCreatedAt m)).isSome) := by
  induction msgs with
  | nil => intro acc; simp
  | cons m rest ih =>
    intro acc
    rw [List.foldl_cons, ih, processMsg_hour_sum, List.countP_cons]
    by_cases h : (extract_hour (msgCreatedAt m)).isSome <;> simp [h] <;> omega

theorem msgFold_weekday_sum (msgs : List Message) :
    ∀ acc : Stats × Nat × Nat,
      sumCounts ((msgs.foldl processMsg acc).1).messages_by_weekday =
        sumCounts acc.1.messages_by_weekday +
          msgs.countP (fun m => (extract_weekday (msgCreatedAt m)).isSome) := by
  induction msgs with
  | nil => intro acc; simp
  | cons m rest ih =>
    intro acc
    rw [List.foldl_cons, ih, processMsg_weekday_sum, List.countP_cons]
    by_cases h : (extract_weekday (msgCreatedAt m)).isSome <;> simp [h] <;> omega

theorem msgFold_snd (msgs : List Message) :
    ∀ acc : Stats × Nat × Nat,
      (msgs.foldl processMsg acc).2 = msgs.foldl wordStep acc.2 := by
  induction msgs with
  | nil => intro acc; rfl
  | cons m rest ih =>
    intro acc
    rw [List.foldl_cons, ih, processMsg_snd, List.foldl_cons]

/-! ### Step characterizations of the conversation loop -/

theorem processConvo_total_conversations (s : Stats) (c : Conversation) :
    (processConvo s c).total_conversations = s.total_conversations := by
  simp only [processConvo]
  rw [msgFold_total_conversations]
  split <;> rfl

theorem processConvo_total_messages (s : Stats) (c : Conversation) :
    (processConvo s c).total_messages = s.total_messages + (convoMessages c).length := by
  simp only [processConvo]
  rw [msgFold_total_messages]
  split <;> rfl

theorem processConvo_lengths (s : Stats) (c : Conversation) :
    (processConvo s c).conversation_lengths =
      s.conversation_lengths ++ [(convoMessages c).length] := by
  simp only [processConvo]
  rw [msgFold_lengths]
  split <;> rfl

theorem processConvo_names (s : Stats) (c : Conversation) :
    (processConvo s c).conversation_names = s.conversation_names ++ [convoNameDate c] := by
  simp only [processConvo]
  rw [msgFold_names]
  split <;> rfl

theorem processConvo_longest (s : Stats) (c : Conversation) :
    (processConvo s c).longest_conversations =
      s.longest_conversations ++ [convoRecord c] := by
  simp only [processConvo, convoRecord]
  rw [msgFold_longest, msgFold_snd]
  split <;> rfl

theorem processConvo_months (s : Stats) (c : Conversation) :
    sumCounts (processConvo s c).conversations_by_month =
      sumCounts s.conversations_by_month + (if convoCreated c ≠ "" then 1 else 0) := by
  simp only [processConvo]
  rw [msgFold_months]
  split <;> simp [sumCounts_counterIncr]

theorem processConvo_human_messages (s : Stats) (c : Conversation) :
    (processConvo s c).human_messages =
      s.human_messages + (convoMessages c).countP (fun m => decide (msgSender m = "human")) := by
  simp only [processConvo]
  rw [msgFold_human_messages]
  split <;> rfl

theorem processConvo_assistant_messages (s : Stats) (c : Conversation) :
    (processConvo s c).assistant_messages =
      s.assistant_messages +
        (convoMessages c).countP (fun m => decide (msgSender m = "assistant")) := by
  simp only [processConvo]
  rw [msgFold_assistant_messages]
  split <;> rfl

theorem processConvo_human_words (s : Stats) (c : Conversation) :
    (processConvo s c).human_words =
      s.human_words +
        ((convoMessages c).map (fun m =>
          if msgSender m = "human" then count_words (msgText m) else 0)).sum := by
  simp only [processConvo]
  rw [msgFold_human_words]
  split <;> rfl

theorem processConvo_assistant_words (s : Stats) (c : Conversation) :
    (processConvo s c).assistant_words =
      s.assistant_words +
        ((convoMessages c).map (fun m =>
          if msgSender m = "assistant" then count_words (msgText m) else 0)).sum := by
  simp only [processConvo]
  rw [msgFold_assistant_words]
  split <;> rfl

theorem processConvo_hour_sum (s : Stats) (c : Conversation) :
    sumCounts (processConvo s c).messages_by_hour =
      sumCounts s.messages_by_hour +
        (convoMessages c).countP (fun m => (extract_hour (msgCreatedAt m)).isSome) := by
  simp only [processConvo]
  rw [msgFold_hour_sum]
  split <;> rfl

theorem processConvo_weekday_sum (s : Stats) (c : Conversation) :
    sumCounts (processConvo s c).messages_by_weekday =
      sumCounts s.messages_by_weekday +
        (convoMessages c).countP (fun m => (extract_weekday (msgCreatedAt m)).isSome) := by
  simp only [processConvo]
  rw [msgFold_weekday_sum]
  split <;> rfl

/-! ### Fold characterizations of the conversation loop -/

theorem convoFold_total_conversations (convos : List Conversation) :
    ∀ s : Stats, (convos.foldl processConvo s).total_conversations = s.total_conversations := by
  induction convos with
  | nil => intro s; rfl
  | cons c rest ih =>
    intro s
    rw [List.foldl_cons, ih, processConvo_total_conversations]

theorem convoFold_total_messages (convos : List Conversation) :
    ∀ s : Stats, (convos.foldl processConvo s).total_messages =
      s.total_messages + (convos.map (fun c => (convoMessages c).length)).sum := by
  induction convos with
  | nil => intro s; simp
  | cons c rest ih =>
    intro s
    rw [List.foldl_cons, ih, processConvo_total_messages, List.map_cons, List.sum_cons]
    omega

theorem convoFold_lengths (convos : List Conversation) :
    ∀ s : Stats, (convos.foldl processConvo s).conversation_lengths =
      s.conversation_lengths ++ convos.map (fun c => (convoMessages c).length) := by
  induction convos with
  | nil => intro s; simp
  | cons c rest ih =>
    intro s
    rw [List.foldl_cons, ih, processConvo_lengths, List.map_cons]
    simp

theorem convoFold_names (convos : List Conversation) :
    ∀ s : Stats, (convos.foldl processConvo s).conversation_names =
      s.conversation_names ++ convos.map convoNameDate := by
  induction convos with
  | nil => intro s; simp
  | cons c rest ih =>
    intro s
    rw [List.foldl_cons, ih, processConvo_names, List.map_cons]
    simp

theorem convoFold_longest (convos : List Conversation) :
    ∀ s : Stats, (convos.foldl processConvo s).longest_conversations =
      s.longest_conversations ++ convos.map convoRecord := by
  induction convos with
  | nil => intro s; simp
  | cons c rest ih =>
    intro s
    rw [List.foldl_cons, ih, processConvo_longest, List.map_cons]
    simp

theorem convoFold_months (convos : List Conversation) :
    ∀ s : Stats, sumCounts (convos.foldl processConvo s).conversations_by_month =
      sumCounts s.conversations_by_month +
        convos.countP (fun c => decide (convoCreated c ≠ "")) := by
  induction convos with
  | nil => intro s; simp
  | cons c rest ih =>
    intro s
    rw [List.foldl_cons, ih, processConvo_months, List.countP_cons]
    by_cases h : convoCreated c ≠ "" <;> simp [h] <;> omega

theorem convoFold_human_messages (convos : List Conversation) :
    ∀ s : Stats, (convos.foldl processConvo s).human_messages =
      s.human_messages +
        (convos.map (fun c =>
          (convoMessages c).countP (fun m => decide (msgSender m = "human")))).sum := by
  induction convos with
  | nil => intro s; simp
  | cons c rest ih =>
    intro s
    rw [List.foldl_cons, ih, processConvo_human_messages, List.map_cons, List.sum_cons]
    omega

theorem convoFold_assistant_messages (convos : List Conversation) :
    ∀ s : Stats, (convos.foldl processConvo s).assistant_messages =
      s.assistant_messages +
        (convos.map (fun c =>
          (convoMessages c).countP (fun m => decide (msgSender m = "assistant")))).sum := by
  induction convos with
  | nil => intro s; simp
  | cons c rest ih =>
    intro s
    rw [List.foldl_cons, ih, processConvo_assistant_messages, List.map_cons, List.sum_cons]
    omega

theorem convoFold_human_words (convos : List Conversation) :
    ∀ s : Stats, (convos.foldl processConvo s).human_words =
      s.human_words +
        (convos.map (fun c =>
          ((convoMessages c).map (fun m =>
            if msgSender m = "human" then count_words (msgText m) else 0)).sum)).sum := by
  induction convos with
  | nil => intro s; simp
  | cons c rest ih =>
    intro s
    rw [List.foldl_cons, ih, processConvo_human_words, List.map_cons, List.sum_cons]
    omega

theorem convoFold_assistant_words (convos : List Conversation) :
    ∀ s : Stats, (convos.foldl processConvo s).assistant_words =
      s.assistant_words +
        (convos.map (fun c =>
          ((convoMessages c).map (fun m =>
            if msgSender m = "assistant" then count_words (msgText m) else 0)).sum)).sum := by
  induction convos with
  | nil => intro s; simp
  | cons c rest ih =>
    intro s
    rw [List.foldl_cons, ih, processConvo_assistant_words, List.map_cons, List.sum_cons]
    omega

theorem convoFold_hour_sum (convos : List Conversation) :
    ∀ s : Stats, sumCounts (convos.foldl processConvo s).messages_by_hour =
      sumCounts s.messages_by_hour +
        (convos.map (fun c =>
          (convoMessages c).countP (fun m => (extract_hour (msgCreatedAt m)).isSome))).sum := by
  induction convos with
  | nil => intro s; simp
  | cons c rest ih =>
    intro s
    rw [List.foldl_cons, ih, processConvo_hour_sum, List.map_cons, List.sum_cons]
    omega

theorem convoFold_weekday_sum (convos : List Conversation) :
    ∀ s : Stats, sumCounts (convos.foldl processConvo s).messages_by_weekday =
      sumCounts s.messages_by_weekday +
        (convos.map (fun c =>
          (convoMessages c).countP (fun m => (extract_weekday (msgCreatedAt m)).isSome))).sum := by
  induction convos with
  | nil => intro s; simp
  | cons c rest ih =>
    intro s
    rw [List.foldl_cons, ih, processConvo_weekday_sum, List.map_cons, List.sum_cons]
    omega

/-! ### Projections of `analyze_conversations` -/

theorem addDerived_total_conversations (s : Stats) :
    (addDerived s).total_conversations = s.total_conversations := by
  simp only [addDerived]
  split <;> split <;> split <;> rfl

theorem addDerived_total_messages (s : Stats) :
    (addDerived s).total_messages = s.total_messages := by
  simp only [addDerived]
  split <;> split <;> split <;> rfl

theorem addDerived_human_messages (s : Stats) :
    (addDerived s).human_messages = s.human_messages := by
  simp only [addDerived]
  split <;> split <;> split <;> rfl

theorem addDerived_assistant_messages (s : Stats) :
    (addDerived s).assistant_messages = s.assistant_messages := by
  simp only [addDerived]
  split <;> split <;> split <;> rfl

theorem addDerived_human_words (s : Stats) :
    (addDerived s).human_words = s.human_words := by
  simp only [addDerived]
  split <;> split <;> split <;> rfl

theorem addDerived_assistant_words (s : Stats) :
    (addDerived s).assistant_words = s.assistant_words := by
  simp only [addDerived]
  split <;> split <;> split <;> rfl

theorem addDerived_months (s : Stats) :
    (addDerived s).conversations_by_month = s.conversations_by_month := by
  simp only [addDerived]
  split <;> split <;> split <;> rfl

theorem addDerived_hours (s : Stats) :
    (addDerived s).messages_by_hour = s.messages_by_hour := by
  simp only [addDerived]
  split <;> split <;> split <;> rfl

theorem addDerived_weekdays (s : Stats) :
    (addDerived s).messages_by_weekday = s.messages_by_weekday := by
  simp only [addDerived]
  split <;> split <;> split <;> rfl

theorem addDerived_lengths (s : Stats) :
    (addDerived s).conversation_lengths = s.conversation_lengths := by
  simp only [addDerived]
  split <;> split <;> split <;> rfl

theorem addDerived_longest (s : Stats) :
    (addDerived s).longest_conversations = s.longest_conversations := by
  simp only [addDerived]
  split <;> split <;> split <;> rfl

theorem addDerived_names (s : Stats) :
    (addDerived s).conversation_names = s.conversation_names := by
  simp only [addDerived]
  split <;> split <;> split <;> rfl

theorem analyze_total_conversations (convos : List Conversation) :
    (analyze_conversations convos).total_conversations = convos.length := by
  unfold analyze_conversations
  rw [addDerived_total_conversations]
  show (convos.foldl processConvo (initStats convos)).total_conversations = convos.length
  rw [convoFold_total_conversations]
  rfl

theorem analyze_total_messages (convos : List Conversation) :
    (analyze_conversations convos).total_messages =
      (convos.map (fun c => (convoMessages c).length)).sum := by
  unfold analyze_conversations
  rw [addDerived_total_messages]
  show (convos.foldl processConvo (initStats convos)).total_messages = _
  rw [convoFold_total_messages]
  simp [initStats, sumCounts]

theorem analyze_lengths (convos : List Conversation) :
    (analyze_conversations convos).conversation_lengths =
      convos.map (fun c => (convoMessages c).length) := by
  unfold analyze_conversations
  rw [addDerived_lengths]
  show (convos.foldl processConvo (initStats convos)).conversation_lengths = _
  rw [convoFold_lengths]
  rfl

theorem analyze_names (convos : List Conversation) :
    (analyze_conversations convos).conversation_names = convos.map convoNameDate := by
  unfold analyze_conversations
  rw [addDerived_names]
  show (convos.foldl processConvo (initStats convos)).conversation_names = _
  rw [convoFold_names]
  rfl

theorem analyze_longest (convos : List Conversation) :
    (analyze_conversations convos).longest_conversations =
      ((convos.map convoRecord).mergeSort longestLE).take 20 := by
  unfold analyze_conversations
  rw [addDerived_longest]
  show (((convos.foldl processConvo (initStats convos)).longest_conversations).mergeSort
      longestLE).take 20 = _
  rw [convoFold_longest]
  rfl

theorem analyze_months (convos : List Conversation) :
    sumCounts (analyze_conversations convos).conversations_by_month =
      convos.countP (fun c => decide (convoCreated c ≠ "")) := by
  unfold analyze_conversations
  rw [addDerived_months]
  show sumCounts (convos.foldl processConvo (initStats convos)).conversations_by_month = _
  rw [convoFold_months]
  simp [initStats, sumCounts]

theorem analyze_human_messages (convos : List Conversation) :
    (analyze_conversations convos).human_messages =
      (convos.map (fun c =>
        (convoMessages c).countP (fun m => decide (msgSender m = "human")))).sum := by
  unfold analyze_conversations
  rw [addDerived_human_messages]
  show (convos.foldl processConvo (initStats convos)).human_messages = _
  rw [convoFold_human_messages]
  simp [initStats, sumCounts]

theorem analyze_assistant_messages (convos : List Conversation) :
    (analyze_conversations convos).assistant_messages =
      (convos.map (fun c =>
        (convoMessages c).countP (fun m => decide (msgSender m = "assistant")))).sum := by
  unfold analyze_conversations
  rw [addDerived_assistant_messages]
  show (convos.foldl processConvo (initStats convos)).assistant_messages = _
  rw [convoFold_assistant_messages]
  simp [initStats, sumCounts]

theorem analyze_human_words (convos : List Conversation) :
    (analyze_conversations convos).human_words =
      (convos.map (fun c =>
        ((convoMessages c).map (fun m =>
          if msgSender m = "human" then count_words (msgText m) else 0)).sum)).sum := by
  unfold analyze_conversations
  rw [addDerived_human_words]
  show (convos.foldl processConvo (initStats convos)).human_words = _
  rw [convoFold_human_words]
  simp [initStats, sumCounts]

theorem analyze_assistant_words (convos : List Conversation) :
    (analyze_conversations convos).assistant_words =
      (convos.map (fun c =>
        ((convoMessages c).map (fun m =>
          if msgSender m = "assistant" then count_words (msgText m) else 0)).sum)).sum := by
  unfold analyze_conversations
  rw [addDerived_assistant_words]
  show (convos.foldl processConvo (initStats convos)).assistant_words = _
  rw [convoFold_assistant_words]
  simp [initStats, sumCounts]

theorem analyze_hour_sum (convos : List Conversation) :
    sumCounts (analyze_conversations convos).messages_by_hour =
      (convos.map (fun c =>
        (convoMessages c).countP (fun m => (extract_hour (msgCreatedAt m)).isSome))).sum := by
  unfold analyze_conversations
  rw [addDerived_hours]
  show sumCounts (convos.foldl processConvo (initStats convos)).messages_by_hour = _
  rw [convoFold_hour_sum]
  simp [initStats, sumCounts]

theorem analyze_weekday_sum (convos : List Conversation) :
    sumCounts (analyze_conversations convos).messages_by_weekday =
      (convos.map (fun c =>
        (convoMessages c).countP (fun m => (extract_weekday (msgCreatedAt m)).isSome))).sum := by
  unfold analyze_conversations
  rw [addDerived_weekdays]
  show sumCounts (convos.foldl processConvo (initStats convos)).messages_by_weekday = _
  rw [convoFold_weekday_sum]
  simp [initStats, sumCounts]

/-! ### Bridging lemmas -/

theorem flatMap_length {α β : Type} (l : List α) (f : α → List β) :
    (l.flatMap f).length = (l.map (fun x => (f x).length)).sum := by
  induction l with
  | nil => rfl
  | cons x rest ih =>
    rw [List.flatMap_cons, List.length_append, ih, List.map_cons, List.sum_cons]

theorem flatMap_countP {α β : Type} (l : List α) (f : α → List β) (p : β → Bool) :
    (l.flatMap f).countP p = (l.map (fun x => (f x).countP p)).sum := by
  induction l with
  | nil => rfl
  | cons x rest ih =>
    rw [List.flatMap_cons, List.countP_append, ih, List.map_cons, List.sum_cons]

theorem flatMap_filter_map_sum {α β : Type} (l : List α) (f : α → List β) (p : β → Bool)
    (g : β → Nat) :
    (((l.flatMap f).filter p).map g).sum =
      (l.map (fun x => (((f x).filter p).map g).sum)).sum := by
  induction l with
  | nil => rfl
  | cons x rest ih =>
    rw [List.flatMap_cons, List.filter_append, List.map_append, List.sum_append, ih,
      List.map_cons, List.sum_cons]

theorem filter_map_sum_eq_ite_sum {α : Type} (l : List α) (p : α → Bool) (g : α → Nat) :
    ((l.filter p).map g).sum = (l.map (fun x => if p x then g x else 0)).sum := by
  induction l with
  | nil => rfl
  | cons x rest ih =>
    by_cases h : p x <;>
      simp [List.filter_cons, h, ih]

theorem pyslice_eq_empty_iff (s : String) (n : Nat) :
    pyslice s n = "" ↔ n = 0 ∨ s = "" := by
  constructor
  · intro h
    have hd : (pyslice s n).data = s.data.take n := rfl
    rw [h] at hd
    have : s.data.take n = [] := hd.symm
    rcases List.take_eq_nil_iff.mp this with h1 | h2
    · exact Or.inl h1
    · exact Or.inr (by cases s; simp_all)
  · intro h
    rcases h with h | h
    · subst h
      apply String.ext
      show s.data.take 0 = ([] : List Char)
      simp
    · subst h
      apply String.ext
      show (("" : String).data).take n = ([] : List Char)
      simp

theorem convoCreated_ne_empty_iff (c : Conversation) :
    convoCreated c ≠ "" ↔ c.created_at.getD "" ≠ "" := by
  unfold convoCreated
  rw [not_iff_not, pyslice_eq_empty_iff]
  simp

theorem convoRecord_messages (c : Conversation) :
    (convoRecord c).messages = (convoMessages c).length := rfl

theorem longestLE_trans (a b c : LongRecord) :
    longestLE a b → longestLE b c → longestLE a c := by
  simp only [longestLE, decide_eq_true_eq]
  omega

theorem longestLE_total (a b : LongRecord) : longestLE a b || longestLE b a := by
  simp only [longestLE]
  rcases Nat.le_total b.messages a.messages with h | h <;> simp [h]

/-! ### Claim C1 -/

/-- C1, as stated, is false: a conversation with no `created_at` field is
counted in `total_conversations` but increments no per-month counter (the
`if created:` guard skips it), so on `[{"name": "Hello"}]` the per-month sum
is 0 while `total_conversations` is 1. -/
theorem C1_counterexample :
    sumCounts (analyze_conversations
        [{ name := some "Hello", created_at := none, chat_messages := none }]).conversations_by_month = 0 ∧
    (analyze_conversations
        [{ name := some "Hello", created_at := none, chat_messages := none }]).total_conversations = 1 ∧
    sumCounts (analyze_conversations
        [{ name := some "Hello", created_at := none, chat_messages := none }]).conversations_by_month ≠
      (analyze_conversations
        [{ name := some "Hello", created_at := none, chat_messages := none }]).total_conversations := by
  rw [analyze_months, analyze_total_conversations]
  refine ⟨?_, rfl, ?_⟩ <;> decide

/-- C1 (amended): the per-month counters of the conversation aggregator sum
to the number of conversations whose `created_at` is present and nonempty;
in particular the sum equals `total_conversations` whenever every
conversation has a nonempty `created_at`. -/
theorem C1_month_sum (convos : List Conversation) :
    sumCounts (analyze_conversations convos).conversations_by_month =
      convos.countP (fun c => decide (c.created_at.getD "" ≠ "")) ∧
    ((∀ c ∈ convos, c.created_at.getD "" ≠ "") →
      sumCounts (analyze_conversations convos).conversations_by_month =
        (analyze_conversations convos).total_conversations) := by
  have hbase : sumCounts (analyze_conversations convos).conversations_by_month =
      convos.countP (fun c => decide (c.created_at.getD "" ≠ "")) := by
    rw [analyze_months]
    apply List.countP_congr
    intro c _
    simp [convoCreated_ne_empty_iff]
  refine ⟨hbase, fun h => ?_⟩
  rw [hbase, analyze_total_conversations]
  rw [List.countP_eq_length_filter]
  have : convos.filter (fun c => decide (c.created_at.getD "" ≠ "")) = convos := by
    apply List.filter_eq_self.mpr
    intro c hc
    exact decide_eq_true (h c hc)
  rw [this]

/-- Witness for C1: on a one-conversation list with a nonempty timestamp the
per-month sum equals the conversation total. -/
theorem C1_month_sum_witness :
    sumCounts (analyze_conversations
        [{ name := some "Hi", created_at := some "2025-04-01T10:00:00Z",
           chat_messages := none }]).conversations_by_month =
      (analyze_conversations
        [{ name := some "Hi", created_at := some "2025-04-01T10:00:00Z",
           chat_messages := none }]).total_conversations :=
  (C1_month_sum _).2 (by decide)

/-! ### Claim C3 -/

/-- C3: the `longest_conversations` output is a subset of the
per-conversation records, has length at most 20, is sorted by message count
in descending order, and the sort is stable: any in-order pair of input
records with `b.messages ≤ a.messages` (so in particular any tie) keeps its
relative order in the sorted list that the output truncates. -/
theorem C3_longest_sorted (convos : List Conversation) :
    (∀ r ∈ (analyze_conversations convos).longest_conversations, r ∈ convos.map convoRecord) ∧
    (analyze_conversations convos).longest_conversations.length ≤ 20 ∧
    (analyze_conversations convos).longest_conversations.Pairwise
      (fun a b => b.messages ≤ a.messages) ∧
    (∀ a b : LongRecord, [a, b].Sublist (convos.map convoRecord) →
      b.messages ≤ a.messages →
      [a, b].Sublist ((convos.map convoRecord).mergeSort longestLE)) := by
  refine ⟨?_, ?_, ?_, ?_⟩
  · intro r hr
    rw [analyze_longest] at hr
    exact List.mem_mergeSort.mp (List.mem_of_mem_take hr)
  · rw [analyze_longest]
    exact List.length_take_le 20 _
  · rw [analyze_longest]
    have hs := List.sorted_mergeSort longestLE_trans longestLE_total (convos.map convoRecord)
    have hs2 := hs.sublist (List.take_sublist 20 _)
    exact hs2.imp (fun h => of_decide_eq_true h)
  · intro a b hsub hle
    exact List.pair_sublist_mergeSort longestLE_trans longestLE_total (decide_eq_true hle) hsub

/-- Witness for C3 at a concrete two-conversation input. -/
theorem C3_longest_sorted_witness :
    (analyze_conversations
      [{ name := some "A", created_at := none, chat_messages := some [] },
       { name := some "B", created_at := none,
         chat_messages := some [{ sender := some "human", text := some "hi",
                                  created_at := none }] }]).longest_conversations.length ≤ 20 :=
  (C3_longest_sorted _).2.1

/-! ### Claim C7 -/

/-- C7: a message whose `created_at` is missing (the empty default) or
unparseable is excluded from the hour and weekday counters (their totals
count exactly the messages whose timestamp extraction succeeds), yet every
message is counted in `total_messages`, and the per-sender message and word
counts depend only on the sender and text fields, never on the timestamp.
The aggregation is a total function, so such messages cannot make it fail. -/
theorem C7_timestamp_exclusion (convos : List Conversation) :
    extract_hour "" = none ∧
    extract_weekday "" = none ∧
    (analyze_conversations convos).total_messages = (convos.flatMap convoMessages).length ∧
    sumCounts (analyze_conversations convos).messages_by_hour =
      ((convos.flatMap convoMessages).filter
        (fun m => (extract_hour (msgCreatedAt m)).isSome)).length ∧
    sumCounts (analyze_conversations convos).messages_by_weekday =
      ((convos.flatMap convoMessages).filter
        (fun m => (extract_weekday (msgCreatedAt m)).isSome)).length ∧
    (analyze_conversations convos).human_messages =
      ((convos.flatMap convoMessages).filter (fun m => decide (msgSender m = "human"))).length ∧
    (analyze_conversations convos).assistant_messages =
      ((convos.flatMap convoMessages).filter
        (fun m => decide (msgSender m = "assistant"))).length ∧
    (analyze_conversations convos).human_words =
      (((convos.flatMap convoMessages).filter (fun m => decide (msgSender m = "human"))).map
        (fun m => count_words (msgText m))).sum ∧
    (analyze_conversations convos).assistant_words =
      (((convos.flatMap convoMessages).filter
          (fun m => decide (msgSender m = "assistant"))).map
        (fun m => count_words (msgText m))).sum := by
  refine ⟨rfl, rfl, ?_, ?_, ?_, ?_, ?_, ?_, ?_⟩
  · rw [analyze_total_messages, flatMap_length]
  · rw [analyze_hour_sum, ← List.countP_eq_length_filter, flatMap_countP]
  · rw [analyze_weekday_sum, ← List.countP_eq_length_filter, flatMap_countP]
  · rw [analyze_human_messages, ← List.countP_eq_length_filter, flatMap_countP]
  · rw [analyze_assistant_messages, ← List.countP_eq_length_filter, flatMap_countP]
  · rw [analyze_human_words, flatMap_filter_map_sum]
    simp only [filter_map_sum_eq_ite_sum, decide_eq_true_eq]
  · rw [analyze_assistant_words, flatMap_filter_map_sum]
    simp only [filter_map_sum_eq_ite_sum, decide_eq_true_eq]

/-! ### Claim C9 -/

/-- C9: `total_messages` equals the sum of `conversation_lengths`, which
equals the sum of the `messages` fields of the per-conversation records
accumulated before the longest-conversations truncation; this holds for
every input, including empty lists and conversations with no
`chat_messages` field. -/
theorem C9_totals_consistent (convos : List Conversation) :
    (analyze_conversations convos).total_messages =
      (analyze_conversations convos).conversation_lengths.sum ∧
    (analyze_conversations convos).conversation_lengths.sum =
      ((convos.map convoRecord).map (fun r => r.messages)).sum := by
  rw [analyze_total_messages, analyze_lengths, List.map_map]
  exact ⟨rfl, rfl⟩

/-! ### Topic classifier lemmas -/

theorem matchKeywords_eq_any (name : String) (kws : List String) :
    matchKeywords name kws = kws.any (fun kw => isSubstrOf kw.data name.data) := by
  induction kws with
  | nil => rfl
  | cons kw rest ih =>
    rw [List.any_cons, matchKeywords]
    by_cases h : isSubstrOf kw.data name.data <;> simp [h, ih]

theorem classifyName_eq_find (name : String) (tks : List (String × List String)) :
    classifyName name tks =
      (match tks.find? (fun tk => tk.2.any (fun kw => isSubstrOf kw.data name.data)) with
       | some tk => tk.1
       | none => "Other") := by
  induction tks with
  | nil => rfl
  | cons tk rest ih =>
    obtain ⟨t, kws⟩ := tk
    rw [classifyName, matchKeywords_eq_any, List.find?]
    by_cases h : kws.any (fun kw => isSubstrOf kw.data name.data) <;> simp [h, ih]

theorem topicFold_count_sum (convos : List Conversation) :
    ∀ acc : List (String × Nat) × List (String × List TopicRec),
      sumCounts (convos.foldl topicStep acc).1 = sumCounts acc.1 + convos.length := by
  induction convos with
  | nil => intro acc; simp
  | cons c rest ih =>
    intro acc
    rw [List.foldl_cons, ih]
    show sumCounts (counterIncr acc.1 _) + rest.length = _
    rw [sumCounts_counterIncr, List.length_cons]
    omega

/-- Association-list lookup into the `defaultdict(list)` accumulator. -/
def sampleLookup : List (String × List TopicRec) → String → List TopicRec
  | [], _ => []
  | (k0, v) :: rest, k => if k0 = k then v else sampleLookup rest k

theorem sampleLookup_sampleAppend_same (l : List (String × List TopicRec)) (k : String)
    (r : TopicRec) : sampleLookup (sampleAppend l k r) k = sampleLookup l k ++ [r] := by
  induction l with
  | nil => simp [sampleAppend, sampleLookup]
  | cons kv rest ih =>
    obtain ⟨k0, v⟩ := kv
    by_cases h : k0 = k
    · subst h
      simp [sampleAppend, sampleLookup]
    · simp [sampleAppend, sampleLookup, h, ih]

theorem sampleLookup_sampleAppend_ne (l : List (String × List TopicRec)) (k k' : String)
    (r : TopicRec) (h : k' ≠ k) :
    sampleLookup (sampleAppend l k r) k' = sampleLookup l k' := by
  induction l with
  | nil => simp [sampleAppend, sampleLookup, Ne.symm h]
  | cons kv rest ih =>
    obtain ⟨k0, v⟩ := kv
    by_cases h0 : k0 = k
    · subst h0
      simp [sampleAppend, sampleLookup, show k0 ≠ k' from fun e => h e.symm, ih]
    · by_cases h1 : k0 = k' <;> simp [sampleAppend, sampleLookup, h0, h1, ih, h]

theorem topicFold_samples (convos : List Conversation) :
    ∀ (acc : List (String × Nat) × List (String × List TopicRec)) (k : String),
      sampleLookup (convos.foldl topicStep acc).2 k =
        sampleLookup acc.2 k ++
          ((convos.filter (fun c =>
            decide (classifyName (topicName c) topic_keywords = k))).map topicSample) := by
  induction convos with
  | nil => intro acc k; simp
  | cons c rest ih =>
    intro acc k
    rw [List.foldl_cons, ih]
    show sampleLookup (sampleAppend acc.2 (classifyName (topicName c) topic_keywords)
        (topicSample c)) k ++ _ = _
    by_cases h : classifyName (topicName c) topic_keywords = k
    · rw [h, sampleLookup_sampleAppend_same, List.filter_cons_of_pos (by simpa using h),
        List.map_cons]
      simp
    · rw [sampleLookup_sampleAppend_ne _ _ _ _ (fun e => h e.symm),
        List.filter_cons_of_neg (by simpa using h)]

/-- The keys of the sample accumulator. -/
def sampleKeys (l : List (String × List TopicRec)) : List String :=
  l.map (fun kv => kv.1)

theorem sampleKeys_sampleAppend (l : List (String × List TopicRec)) (k : String) (r : TopicRec) :
    sampleKeys (sampleAppend l k r) =
      if k ∈ sampleKeys l then sampleKeys l else sampleKeys l ++ [k] := by
  induction l with
  | nil => simp [sampleAppend, sampleKeys]
  | cons kv rest ih =>
    obtain ⟨k0, v⟩ := kv
    by_cases h : k0 = k
    · subst h
      simp [sampleAppend, sampleKeys]
    · simp only [sampleAppend, if_neg h, sampleKeys, List.map_cons] at ih ⊢
      rw [ih]
      have : (k ∈ k0 :: List.map (fun kv => kv.1) rest) ↔ (k ∈ List.map (fun kv => kv.1) rest) := by
        simp [List.mem_cons, Ne.symm h]
      by_cases hm : k ∈ List.map (fun kv => kv.1) rest <;> simp [hm, this]

theorem nodup_sampleAppend (l : List (String × List TopicRec)) (k : String) (r : TopicRec)
    (h : (sampleKeys l).Nodup) : (sampleKeys (sampleAppend l k r)).Nodup := by
  rw [sampleKeys_sampleAppend]
  by_cases hm : k ∈ sampleKeys l
  · simp [hm, h]
  · simp only [hm, if_false]
    rw [List.nodup_append]
    exact ⟨h, List.nodup_singleton k, by simpa using hm⟩

theorem topicFold_nodup (convos : List Conversation) :
    ∀ acc : List (String × Nat) × List (String × List TopicRec),
      (sampleKeys acc.2).Nodup → (sampleKeys (convos.foldl topicStep acc).2).Nodup := by
  induction convos with
  | nil => intro acc h; exact h
  | cons c rest ih =>
    intro acc h
    rw [List.foldl_cons]
    exact ih _ (nodup_sampleAppend _ _ _ h)

theorem mem_eq_sampleLookup (l : List (String × List TopicRec)) (k : String) (v : List TopicRec)
    (hnd : (sampleKeys l).Nodup) (hm : (k, v) ∈ l) : sampleLookup l k = v := by
  induction l with
  | nil => cases hm
  | cons kv rest ih =>
    obtain ⟨k0, v0⟩ := kv
    rcases List.mem_cons.mp hm with he | ht
    · rw [Prod.mk.injEq] at he
      obtain ⟨e1, e2⟩ := he
      subst e1; subst e2
      simp [sampleLookup]
    · have hk0 : k0 ≠ k := by
        intro e
        subst e
        have : k0 ∈ sampleKeys rest := by
          simp only [sampleKeys, List.mem_map]
          exact ⟨(k0, v), ht, rfl⟩
        simp only [sampleKeys, List.map_cons, List.nodup_cons] at hnd
        exact hnd.1 this
      have hnd2 : (sampleKeys rest).Nodup := by
        simp only [sampleKeys, List.map_cons, List.nodup_cons] at hnd
        exact hnd.2
      simp only [sampleLookup, if_neg hk0]
      exact ih hnd2 ht

theorem sumCounts_most_common {α : Type} (l : List (α × Nat)) :
    sumCounts (most_common l) = sumCounts l := by
  unfold most_common sumCounts
  exact List.Perm.sum_eq ((List.mergeSort_perm l _).map _)

theorem most_common_sorted {α : Type} (l : List (α × Nat)) :
    (most_common l).Pairwise (fun a b => b.2 ≤ a.2) := by
  have tr : ∀ a b c : α × Nat,
      (fun a b : α × Nat => decide (b.2 ≤ a.2)) a b →
      (fun a b : α × Nat => decide (b.2 ≤ a.2)) b c →
      (fun a b : α × Nat => decide (b.2 ≤ a.2)) a c := by
    intro a b c h1 h2
    simp only [decide_eq_true_eq] at h1 h2 ⊢
    omega
  have tot : ∀ a b : α × Nat,
      (fun a b : α × Nat => decide (b.2 ≤ a.2)) a b ||
        (fun a b : α × Nat => decide (b.2 ≤ a.2)) b a := by
    intro a b
    rcases Nat.le_total b.2 a.2 with h | h <;> simp [h]
  have hs := List.sorted_mergeSort tr tot l
  exact hs.imp (fun h => of_decide_eq_true h)

/-! ### Claim C2 -/

/-- C2: topic classification is total and deterministic first-match-wins:
the taxonomy loop (with its two `break`s) assigns each conversation the
first category in declaration order containing a matching keyword, or
`"Other"`; consequently the topic counts sum to the number of
conversations, and each per-category sample list is exactly the first (at
most 10) assigned conversations in input order. -/
theorem C2_classification_total (convos : List Conversation) :
    sumCounts (extract_topics convos).topic_counts = convos.length ∧
    (∀ name : String,
      classifyName name topic_keywords =
        (match topic_keywords.find?
            (fun tk => tk.2.any (fun kw => isSubstrOf kw.data name.data)) with
         | some tk => tk.1
         | none => "Other")) ∧
    (∀ (k : String) (v : List TopicRec),
      (k, v) ∈ (extract_topics convos).categorized_conversations →
        v = ((convos.filter (fun c =>
            decide (classifyName (topicName c) topic_keywords = k))).map topicSample).take 10 ∧
        v.length ≤ 10) := by
  refine ⟨?_, fun name => classifyName_eq_find name topic_keywords, ?_⟩
  · show sumCounts (most_common (convos.foldl topicStep ([], [])).1) = convos.length
    rw [sumCounts_most_common, topicFold_count_sum]
    simp [sumCounts]
  · intro k v hm
    have hm2 : (k, v) ∈ ((convos.foldl topicStep ([], [])).2).map
        (fun kv => (kv.1, kv.2.take 10)) := hm
    obtain ⟨⟨k0, v0⟩, hmem, heq⟩ := List.mem_map.mp hm2
    rw [Prod.mk.injEq] at heq
    obtain ⟨e1, e2⟩ := heq
    subst e1
    subst e2
    have hnd : (sampleKeys ((convos.foldl topicStep ([], [])).2)).Nodup :=
      topicFold_nodup convos ([], []) (by simp [sampleKeys])
    have hl : sampleLookup (convos.foldl topicStep ([], [])).2 k0 = v0 :=
      mem_eq_sampleLookup _ _ _ hnd hmem
    rw [topicFold_samples] at hl
    simp only [sampleLookup, List.nil_append] at hl
    refine ⟨by rw [← hl], ?_⟩
    exact List.length_take_le 10 v0

/-- Witness for C2 on a concrete two-conversation input. -/
theorem C2_classification_total_witness :
    sumCounts (extract_topics
      [{ name := some "Vermouth ratios", created_at := some "2025-04-01T10:00:00Z",
         chat_messages := none },
       { name := none, created_at := none, chat_messages := none }]).topic_counts = 2 :=
  (C2_classification_total _).1

/-! ### Claim C10 -/

/-- C10: the `top_topics` list of the wrapped summary never contains the
`"Other"` category, has at most 7 entries, and is ordered by non-increasing
assigned-conversation count, because it is the `most_common` ordering of the
topic counter with `"Other"` filtered out and then truncated to 7. -/
theorem C10_top_topics (stats : Stats) (convos : List Conversation) :
    (∀ kv ∈ (generate_wrapped_stats stats (extract_topics convos)).top_topics,
      kv.1 ≠ "Other") ∧
    (generate_wrapped_stats stats (extract_topics convos)).top_topics.length ≤ 7 ∧
    (generate_wrapped_stats stats (extract_topics convos)).top_topics.Pairwise
      (fun a b => b.2 ≤ a.2) := by
  have htop : (generate_wrapped_stats stats (extract_topics convos)).top_topics =
      (((extract_topics convos).topic_counts).filter
        (fun kv => decide (kv.1 ≠ "Other"))).take 7 := rfl
  refine ⟨?_, ?_, ?_⟩
  · intro kv hkv
    rw [htop] at hkv
    have := List.mem_of_mem_take hkv
    have := List.of_mem_filter this
    exact of_decide_eq_true this
  · rw [htop]
    exact List.length_take_le 7 _
  · rw [htop]
    have hs : ((extract_topics convos).topic_counts).Pairwise (fun a b => b.2 ≤ a.2) :=
      most_common_sorted _
    exact hs.sublist ((List.take_sublist 7 _).trans (List.filter_sublist _))

/-- Witness for C10 at a concrete input. -/
theorem C10_top_topics_witness :
    (generate_wrapped_stats (initStats [])
      (extract_topics [{ name := some "Budget planning",
                         created_at := none, chat_messages := none }])).top_topics.length ≤ 7 :=
  (C10_top_topics _ _).2.1

/-! ### Claim C8 -/

/-- C8, as stated, is false: the topic classifier does not substitute
`"Untitled"` for a missing name — it lower-cases the empty default for
matching and stores the missing name as `None` in the sample record, as this
concrete run shows. -/
theorem C8_counterexample :
    (extract_topics [{ name := none, created_at := some "2025-01-02T03:04:05Z",
                       chat_messages := none }]).categorized_conversations =
      [("Other", [{ name := none, date := "2025-01-02" }])] ∧
    (extract_topics [{ name := none, created_at := some "2025-01-02T03:04:05Z",
                       chat_messages := none }]).categorized_conversations ≠
      [("Other", [{ name := some "Untitled", date := "2025-01-02" }])] := by
  constructor <;> decide

/-- C8 (amended): only the conversation aggregator substitutes the default
name `"Untitled"` for a missing name (in its name/date records and
longest-conversation records); the topic classifier instead matches against
the lower-cased empty string and stores the missing name unchanged (`None`)
in its sample records. -/
theorem C8_name_defaults (c : Conversation) (h : c.name = none) :
    convoName c = "Untitled" ∧
    (convoNameDate c).name = "Untitled" ∧
    (convoRecord c).name = "Untitled" ∧
    topicName c = "" ∧
    (topicSample c).name = none := by
  have h1 : convoName c = "Untitled" := by
    unfold convoName
    rw [h]
    rfl
  refine ⟨h1, h1, h1, ?_, h⟩
  unfold topicName
  rw [h]
  rfl

/-- Witness for C8 at a concrete conversation with no name. -/
theorem C8_name_defaults_witness :
    convoName { name := none, created_at := none, chat_messages := none } = "Untitled" ∧
    topicName { name := none, created_at := none, chat_messages := none } = "" ∧
    (topicSample { name := none, created_at := none, chat_messages := none }).name = none := by
  have h := C8_name_defaults { name := none, created_at := none, chat_messages := none } rfl
  exact ⟨h.1, h.2.2.2.1, h.2.2.2.2⟩

/-! ### Rounding lemmas -/

theorem pyround_eq_of_floor_lt (q : ℚ) (n : Nat) (z : ℤ) (hz : ⌊q * 10 ^ n⌋ = z)
    (h : Int.fract (q * 10 ^ n) < 1/2) : pyround q n = (z : ℚ) / 10 ^ n := by
  unfold pyround roundHalfEven
  rw [if_pos h, hz]

theorem pyround_eq_of_floor_gt (q : ℚ) (n : Nat) (z : ℤ) (hz : ⌊q * 10 ^ n⌋ = z)
    (h : 1/2 < Int.fract (q * 10 ^ n)) : pyround q n = ((z + 1 : ℤ) : ℚ) / 10 ^ n := by
  unfold pyround roundHalfEven
  rw [if_neg (by linarith), if_pos h, hz]

theorem pyround_zero (n : Nat) : pyround 0 n = 0 := by
  unfold pyround roundHalfEven
  norm_num

theorem le_roundHalfEven (q : ℚ) : ⌊q⌋ ≤ roundHalfEven q := by
  unfold roundHalfEven
  split_ifs <;> omega

theorem roundHalfEven_le (q : ℚ) : roundHalfEven q ≤ ⌊q⌋ + 1 := by
  unfold roundHalfEven
  split_ifs <;> omega

theorem roundHalfEven_mono {q q' : ℚ} (h : q ≤ q') :
    roundHalfEven q ≤ roundHalfEven q' := by
  have hf : ⌊q⌋ ≤ ⌊q'⌋ := Int.floor_le_floor h
  rcases lt_or_eq_of_le hf with hlt | heq
  · have h1 := roundHalfEven_le q
    have h2 := le_roundHalfEven q'
    omega
  · have hfr : Int.fract q ≤ Int.fract q' := by
      unfold Int.fract
      rw [heq]
      linarith
  -- with equal floors compare the fractional branches
    unfold roundHalfEven
    rw [heq]
    split_ifs <;> first | omega | linarith

theorem pyround_mono {q q' : ℚ} (n : Nat) (h : q ≤ q') : pyround q n ≤ pyround q' n := by
  unfold pyround
  have h10 : (0:ℚ) < 10 ^ n := by positivity
  have hmul : q * 10 ^ n ≤ q' * 10 ^ n := by
    exact mul_le_mul_of_nonneg_right h (le_of_lt h10)
  have hr : ((roundHalfEven (q * 10 ^ n) : ℤ) : ℚ) ≤ ((roundHalfEven (q' * 10 ^ n) : ℤ) : ℚ) := by
    exact_mod_cast roundHalfEven_mono hmul
  exact (div_le_div_iff_of_pos_right h10).mpr hr

/-! ### Footprint linear forms -/

theorem total_co2_raw_eq (p : Nat) : total_co2_raw p = (831/20000) * p := by
  unfold total_co2_raw operational_co2_raw electricity_co2_raw operational_kwh_raw
    training_co2_raw
  norm_num
  ring

theorem water_liters_raw_eq (p : Nat) : water_liters_raw p = (13/50) * p := by
  unfold water_liters_raw operational_kwh_raw
  norm_num
  ring

theorem offset_cost_raw_eq (p : Nat) : offset_cost_raw p = (831/1000000) * p := by
  unfold offset_cost_raw
  rw [total_co2_raw_eq]
  norm_num
  ring

/-! ### Claim C4 -/

/-- C4: at `human_messages = assistant_messages = 100` (100 message pairs)
the estimator computes `operational_kwh = 2.6`, intermediate
`electricity_co2_kg = 1.17` returned rounded as `1.2`, intermediate
`operational_co2_kg = 1.755` returned rounded as `1.8`,
`training_co2_kg = 2.4`, and intermediate `total_co2_kg = 4.155` returned
rounded as `4.2` (exact rational values: `13/5`, `117/100`, `6/5`,
`351/200`, `9/5`, `12/5`, `831/200`, `21/5`). -/
theorem C4_100_pairs :
    (calculate_carbon_footprint 100 100).message_pairs = 100 ∧
    operational_kwh_raw 100 = 13/5 ∧
    (calculate_carbon_footprint 100 100).operational_kwh = 13/5 ∧
    electricity_co2_raw 100 = 117/100 ∧
    (calculate_carbon_footprint 100 100).electricity_co2_kg = 6/5 ∧
    operational_co2_raw 100 = 351/200 ∧
    (calculate_carbon_footprint 100 100).operational_co2_kg = 9/5 ∧
    training_co2_raw 100 = 12/5 ∧
    (calculate_carbon_footprint 100 100).training_co2_kg = 12/5 ∧
    total_co2_raw 100 = 831/200 ∧
    (calculate_carbon_footprint 100 100).total_co2_kg = 21/5 := by
  have e1 : operational_kwh_raw 100 = 13/5 := by
    unfold operational_kwh_raw
    norm_num
  have e2 : electricity_co2_raw 100 = 117/100 := by
    unfold electricity_co2_raw
    rw [e1]
    norm_num
  have e3 : operational_co2_raw 100 = 351/200 := by
    unfold operational_co2_raw
    rw [e2]
    norm_num
  have e4 : training_co2_raw 100 = 12/5 := by
    unfold training_co2_raw
    norm_num
  have e5 : total_co2_raw 100 = 831/200 := by
    unfold total_co2_raw
    rw [e3, e4]
    norm_num
  have b1 : (calculate_carbon_footprint 100 100).operational_kwh =
      pyround (operational_kwh_raw 100) 1 := rfl
  have b2 : (calculate_carbon_footprint 100 100).electricity_co2_kg =
      pyround (electricity_co2_raw 100) 1 := rfl
  have b3 : (calculate_carbon_footprint 100 100).operational_co2_kg =
      pyround (operational_co2_raw 100) 1 := rfl
  have b4 : (calculate_carbon_footprint 100 100).training_co2_kg =
      pyround (training_co2_raw 100) 1 := rfl
  have b5 : (calculate_carbon_footprint 100 100).total_co2_kg =
      pyround (total_co2_raw 100) 1 := rfl
  refine ⟨rfl, e1, ?_, e2, ?_, e3, ?_, e4, ?_, e5, ?_⟩
  · rw [b1, e1, pyround_eq_of_floor_lt _ _ 26 (by norm_num)
      (by unfold Int.fract; norm_num)]
    norm_num
  · rw [b2, e2, pyround_eq_of_floor_gt _ _ 11 (by norm_num)
      (by unfold Int.fract; norm_num)]
    norm_num
  · rw [b3, e3, pyround_eq_of_floor_gt _ _ 17 (by norm_num)
      (by unfold Int.fract; norm_num)]
    norm_num
  · rw [b4, e4, pyround_eq_of_floor_lt _ _ 24 (by norm_num)
      (by unfold Int.fract; norm_num)]
    norm_num
  · rw [b5, e5, pyround_eq_of_floor_gt _ _ 41 (by norm_num)
      (by unfold Int.fract; norm_num)]
    norm_num

/-! ### Claim C5 -/

/-- C5, as stated, is false for the returned (rounded) values: moving from 0
message pairs to 1 message pair strictly increases `message_pairs` but the
returned `total_co2_kg`, `water_liters` and `offset_cost_usd` are all `0.0`
at both inputs, because one pair's footprint (0.04155 kg, 0.26 L, $0.000831)
rounds away at the returned precisions. -/
theorem C5_counterexample :
    min 0 0 < min 1 1 ∧
    (calculate_carbon_footprint 0 0).total_co2_kg =
      (calculate_carbon_footprint 1 1).total_co2_kg ∧
    (calculate_carbon_footprint 0 0).water_liters =
      (calculate_carbon_footprint 1 1).water_liters ∧
    (calculate_carbon_footprint 0 0).offset_cost_usd =
      (calculate_carbon_footprint 1 1).offset_cost_usd := by
  have z1 : (calculate_carbon_footprint 0 0).total_co2_kg = pyround (total_co2_raw 0) 1 := rfl
  have z2 : (calculate_carbon_footprint 0 0).water_liters =
      pyround (water_liters_raw 0) 0 := rfl
  have z3 : (calculate_carbon_footprint 0 0).offset_cost_usd =
      pyround (offset_cost_raw 0) 2 := rfl
  have o1 : (calculate_carbon_footprint 1 1).total_co2_kg = pyround (total_co2_raw 1) 1 := rfl
  have o2 : (calculate_carbon_footprint 1 1).water_liters =
      pyround (water_liters_raw 1) 0 := rfl
  have o3 : (calculate_carbon_footprint 1 1).offset_cost_usd =
      pyround (offset_cost_raw 1) 2 := rfl
  refine ⟨by decide, ?_, ?_, ?_⟩
  · rw [z1, o1, total_co2_raw_eq, total_co2_raw_eq]
    norm_num [pyround_zero]
    rw [pyround_eq_of_floor_lt _ _ 0 (by norm_num) (by unfold Int.fract; norm_num)]
    norm_num
  · rw [z2, o2, water_liters_raw_eq, water_liters_raw_eq]
    norm_num [pyround_zero]
    rw [pyround_eq_of_floor_lt _ _ 0 (by norm_num) (by unfold Int.fract; norm_num)]
    norm_num
  · rw [z3, o3, offset_cost_raw_eq, offset_cost_raw_eq]
    norm_num [pyround_zero]
    rw [pyround_eq_of_floor_lt _ _ 0 (by norm_num) (by unfold Int.fract; norm_num)]
    norm_num

/-- C5 (amended): the estimator is a pure function of
`message_pairs = min(human_messages, assistant_messages)`, the unrounded
total CO2, water, and offset-cost quantities strictly increase with
`message_pairs`, and the returned (rounded) values are monotone
non-decreasing (strictness is lost to rounding, as the counterexample
shows). -/
theorem C5_pure_monotone (h1 a1 h2 a2 : Nat) :
    (calculate_carbon_footprint h1 a1).message_pairs = min h1 a1 ∧
    (min h1 a1 = min h2 a2 →
      calculate_carbon_footprint h1 a1 = calculate_carbon_footprint h2 a2) ∧
    (min h1 a1 < min h2 a2 →
      total_co2_raw (min h1 a1) < total_co2_raw (min h2 a2) ∧
      water_liters_raw (min h1 a1) < water_liters_raw (min h2 a2) ∧
      offset_cost_raw (min h1 a1) < offset_cost_raw (min h2 a2) ∧
      (calculate_carbon_footprint h1 a1).total_co2_kg ≤
        (calculate_carbon_footprint h2 a2).total_co2_kg ∧
      (calculate_carbon_footprint h1 a1).water_liters ≤
        (calculate_carbon_footprint h2 a2).water_liters ∧
      (calculate_carbon_footprint h1 a1).offset_cost_usd ≤
        (calculate_carbon_footprint h2 a2).offset_cost_usd) := by
  refine ⟨rfl, ?_, ?_⟩
  · intro e
    unfold calculate_carbon_footprint
    rw [e]
  · intro hlt
    have hcast : ((min h1 a1 : Nat) : ℚ) < ((min h2 a2 : Nat) : ℚ) := by
      exact_mod_cast hlt
    have m1 : total_co2_raw (min h1 a1) < total_co2_raw (min h2 a2) := by
      rw [total_co2_raw_eq, total_co2_raw_eq]
      have : (0:ℚ) < 831/20000 := by norm_num
      exact mul_lt_mul_of_pos_left hcast this
    have m2 : water_liters_raw (min h1 a1) < water_liters_raw (min h2 a2) := by
      rw [water_liters_raw_eq, water_liters_raw_eq]
      have : (0:ℚ) < 13/50 := by norm_num
      exact mul_lt_mul_of_pos_left hcast this
    have m3 : offset_cost_raw (min h1 a1) < offset_cost_raw (min h2 a2) := by
      rw [offset_cost_raw_eq, offset_cost_raw_eq]
      have : (0:ℚ) < 831/1000000 := by norm_num
      exact mul_lt_mul_of_pos_left hcast this
    refine ⟨m1, m2, m3, ?_, ?_, ?_⟩
    · exact pyround_mono 1 (le_of_lt m1)
    · exact pyround_mono 0 (le_of_lt m2)
    · exact pyround_mono 2 (le_of_lt m3)

/-- Witness for C5 at `(2, 3)` against `(5, 4)`. -/
theorem C5_pure_monotone_witness :
    min 2 3 < min 5 4 ∧
    total_co2_raw (min 2 3) < total_co2_raw (min 5 4) ∧
    (calculate_carbon_footprint 2 3).total_co2_kg ≤
      (calculate_carbon_footprint 5 4).total_co2_kg :=
  ⟨by decide, ((C5_pure_monotone 2 3 5 4).2.2 (by decide)).1,
    ((C5_pure_monotone 2 3 5 4).2.2 (by decide)).2.2.2.1⟩

/-! ### Claim C6 -/

/-- C6: the synthesizer computes `claude_verbosity_ratio` (the rounded
quotient `assistant_words / human_words`) exactly when `human_words > 0`
(both fields are absent otherwise, so no division error can occur), and in
that case `your_communication_style` is `"Concise"` exactly when the
computed ratio exceeds 5 and `"Conversational"` otherwise. -/
theorem C6_verbosity (stats : Stats) (topics : Topics) :
    ((generate_wrapped_stats stats topics).claude_verbosity_ratio.isSome ↔
      stats.human_words > 0) ∧
    ((generate_wrapped_stats stats topics).your_communication_style.isSome ↔
      stats.human_words > 0) ∧
    (stats.human_words > 0 →
      (generate_wrapped_stats stats topics).claude_verbosity_ratio =
        some (pyround ((stats.assistant_words : ℚ) / (stats.human_words : ℚ)) 1)) ∧
    (∀ r : ℚ, (generate_wrapped_stats stats topics).claude_verbosity_ratio = some r →
      (generate_wrapped_stats stats topics).your_communication_style =
        some (if r > 5 then "Concise" else "Conversational")) := by
  by_cases h : stats.human_words > 0
  · refine ⟨by simp [generate_wrapped_stats, h], by simp [generate_wrapped_stats, h],
      fun _ => by simp [generate_wrapped_stats, h], ?_⟩
    intro r hr
    simp only [generate_wrapped_stats, if_pos h, Option.some.injEq] at hr
    simp only [generate_wrapped_stats, if_pos h]
    rw [hr]
  · refine ⟨by simp [generate_wrapped_stats, h], by simp [generate_wrapped_stats, h],
      fun hc => absurd hc h, ?_⟩
    intro r hr
    simp only [generate_wrapped_stats, if_neg h] at hr
    cases hr

/-- Witness for C6: with 2 human words and 22 assistant words the computed
ratio is 11 and the style is "Concise". -/
theorem C6_verbosity_witness :
    (generate_wrapped_stats
      { initStats [] with human_words := 2, assistant_words := 22 }
      { topic_counts := [], categorized_conversations := [] }).your_communication_style =
      some "Concise" := by
  have h1 := (C6_verbosity
    { initStats [] with human_words := 2, assistant_words := 22 }
    { topic_counts := [], categorized_conversations := [] }).2.2.1 (by decide)
  have h2 := (C6_verbosity
    { initStats [] with human_words := 2, assistant_words := 22 }
    { topic_counts := [], categorized_conversations := [] }).2.2.2 _ h1
  rw [h2]
  have ha : ({ initStats [] with human_words := 2, assistant_words := 22 } : Stats).assistant_words = 22 := rfl
  have hh : ({ initStats [] with human_words := 2, assistant_words := 22 } : Stats).human_words = 2 := rfl
  rw [ha, hh]
  have hq : (((22 : Nat) : ℚ) / ((2 : Nat) : ℚ)) = 11 := by norm_num
  rw [hq, pyround_eq_of_floor_lt _ _ 110 (by norm_num) (by unfold Int.fract; norm_num)]
  norm_num
